import Mathlib

/-!
# Verification of `ZFunctionCache._index_key` (custom_dispatcher.py)

Shallow embedding of the custom cache-key derivation for higher-order
functions.  Python runtime values that can appear in a signature, in a
closure cell, or in a cache key are modelled by the inductive type `Obj`:
scalars and strings are opaque leaves, Python tuples and lists are
containers, `dispObj` models a `dispatcher.Dispatcher` instance (a raw
compiled-function object, carrying its `py_func` introspection payload and
its `_type` attribute) and `dispType` models a `types.Dispatcher` type
descriptor (carrying its `py_func` introspection payload).

Exceptions raised by the Python code (AttributeError from
`_compute_custom_key`, IndexError from `key[-1]`) are modelled by `Option`:
`none` is a propagated exception.

The base class call `super()._index_key(sig, codegen)` belongs to the
external host compiler (numba), an out-of-scope collaborator: its result is
taken as an abstract input `K0 : List Obj` (a tuple) and the theorems
quantify over it.  Likewise `dumps` followed by `sha256(...).hexdigest()` is
an abstract deterministic digest `hasher : Obj → String`.
-/

/-- The introspection identity of a Python function object:
`(__module__, __qualname__)` data of a `py_func`. -/
structure PyFunc where
  modName : String
  qualname : String
deriving DecidableEq, Repr

/-- How a dispatcher-like object exposes its function payload to
`_compute_custom_key`: either a direct `py_func` attribute, or a keyed
wrapper whose `key()` exposes a `py_func`, or neither (in which case the
attribute access raises). -/
inductive Payload where
  /-- the object has a `py_func` attribute directly -/
  | direct (f : PyFunc)
  /-- no direct `py_func`, but `key()` returns an object with `py_func` -/
  | keyed (f : PyFunc)
  /-- neither: `typ.key().py_func` raises -/
  | malformed
deriving DecidableEq, Repr

/-- Python runtime values relevant to `_index_key`. -/
inductive Obj where
  /-- an opaque non-container scalar (e.g. an `int64` type descriptor) -/
  | scalar (n : Nat)
  /-- a Python string (hash digests, module names, ...) -/
  | str (s : String)
  /-- a Python tuple -/
  | tupO (xs : List Obj)
  /-- a Python list -/
  | listO (xs : List Obj)
  /-- a `dispatcher.Dispatcher` instance: payload for `py_func` access and
  its `_type` attribute -/
  | dispObj (p : Payload) (ty : Obj)
  /-- a `types.Dispatcher` type descriptor with its `py_func` payload -/
  | dispType (p : Payload)
deriving Repr

mutual
/-- Boolean equality on `Obj` (deriving cannot handle the nested list). -/
def Obj.beq : Obj → Obj → Bool
  | .scalar n, .scalar m => n == m
  | .str s, .str t => s == t
  | .tupO xs, .tupO ys => Obj.beqL xs ys
  | .listO xs, .listO ys => Obj.beqL xs ys
  | .dispObj p t1, .dispObj q t2 => p == q && Obj.beq t1 t2
  | .dispType p, .dispType q => p == q
  | _, _ => false

/-- Boolean equality on lists of `Obj`. -/
def Obj.beqL : List Obj → List Obj → Bool
  | [], [] => true
  | x :: xs, y :: ys => Obj.beq x y && Obj.beqL xs ys
  | _, _ => false
end

mutual
theorem Obj.beq_iff : ∀ a b : Obj, Obj.beq a b = true ↔ a = b
  | .scalar n, .scalar m => by simp [Obj.beq]
  | .str s, .str t => by simp [Obj.beq]
  | .tupO xs, .tupO ys => by simp [Obj.beq, Obj.beqL_iff xs ys]
  | .listO xs, .listO ys => by simp [Obj.beq, Obj.beqL_iff xs ys]
  | .dispObj p t1, .dispObj q t2 => by
      simp [Obj.beq, Obj.beq_iff t1 t2, beq_iff_eq]
  | .dispType p, .dispType q => by simp [Obj.beq, beq_iff_eq]
  | .scalar _, .str _ | .scalar _, .tupO _ | .scalar _, .listO _
  | .scalar _, .dispObj _ _ | .scalar _, .dispType _
  | .str _, .scalar _ | .str _, .tupO _ | .str _, .listO _
  | .str _, .dispObj _ _ | .str _, .dispType _
  | .tupO _, .scalar _ | .tupO _, .str _ | .tupO _, .listO _
  | .tupO _, .dispObj _ _ | .tupO _, .dispType _
  | .listO _, .scalar _ | .listO _, .str _ | .listO _, .tupO _
  | .listO _, .dispObj _ _ | .listO _, .dispType _
  | .dispObj _ _, .scalar _ | .dispObj _ _, .str _ | .dispObj _ _, .tupO _
  | .dispObj _ _, .listO _ | .dispObj _ _, .dispType _
  | .dispType _, .scalar _ | .dispType _, .str _ | .dispType _, .tupO _
  | .dispType _, .listO _ | .dispType _, .dispObj _ _ => by simp [Obj.beq]

theorem Obj.beqL_iff : ∀ xs ys : List Obj, Obj.beqL xs ys = true ↔ xs = ys
  | [], [] => by simp [Obj.beqL]
  | x :: xs, y :: ys => by
      simp [Obj.beqL, Obj.beq_iff x y, Obj.beqL_iff xs ys]
  | [], _ :: _ => by simp [Obj.beqL]
  | _ :: _, [] => by simp [Obj.beqL]
end

instance : DecidableEq Obj := fun a b =>
  decidable_of_iff (Obj.beq a b = true) (Obj.beq_iff a b)

mutual
/-- `_is_first_class_function(obj)` from `custom_dispatcher.py` lines 50-55:
tuples/lists recurse with `any`, a `dispatcher.Dispatcher` recurses into its
`_type`, and otherwise the test is `isinstance(obj, types.Dispatcher)`. -/
def isFCF : Obj → Bool
  | .tupO xs => isFCFL xs
  | .listO xs => isFCFL xs
  | .dispObj _ ty => isFCF ty
  | .dispType _ => true
  | _ => false

/-- `any(map(_is_first_class_function, xs))` over a Python sequence. -/
def isFCFL : List Obj → Bool
  | [] => false
  | x :: xs => isFCF x || isFCFL xs
end

/-- `_compute_custom_key(typ)` from lines 57-62: fetch `typ.py_func`, or
else `typ.key().py_func`, and return `(py_func.__module__,
py_func.__qualname__)`; `none` models the raised AttributeError when
neither introspection route exists. -/
def computeCustomKey : Payload → Option (String × String)
  | .direct f => some (f.modName, f.qualname)
  | .keyed f => some (f.modName, f.qualname)
  | .malformed => none

/-- The two classes `map_only` is instantiated with: `types.Dispatcher`
(signature rewrite, line 78) and `dispatcher.Dispatcher` (closure rewrite,
line 85). -/
inductive Target where
  | tyDisp
  | objDisp
deriving DecidableEq, Repr

/-- `isinstance(i, types)` for the two `map_only` call sites: a
`types.Dispatcher` descriptor matches `Target.tyDisp`, a
`dispatcher.Dispatcher` instance matches `Target.objDisp`. -/
def matchesTarget : Target → Obj → Bool
  | .tyDisp, .dispType _ => true
  | .objDisp, .dispObj _ _ => true
  | _, _ => false

/-- The `py_func` payload of a dispatcher-like object, used by
`_compute_custom_key` when `map_only` hits a match. -/
def payloadOf : Obj → Option Payload
  | .dispType p => some p
  | .dispObj p _ => some p
  | _ => none

/-- The `(module, qualname)` pair as the Python tuple `map_only`
substitutes. -/
def mkIdObj (m q : String) : Obj := .tupO [.str m, .str q]

mutual
/-- One element of `map_only`'s comprehension (lines 66-73):
`func(i) if isinstance(i, types) else (map_only(types, func, i) if
isinstance(i, (tuple, list)) else i)` where `func` is
`_compute_custom_key`. -/
def mapOnlyElem (t : Target) (o : Obj) : Option Obj :=
  if matchesTarget t o then
    (payloadOf o).bind fun p =>
      (computeCustomKey p).map fun mq => mkIdObj mq.1 mq.2
  else
    match o with
    | .tupO xs => (mapOnlyL t xs).map Obj.tupO
    | .listO xs => (mapOnlyL t xs).map Obj.tupO
    | o => some o

/-- `map_only(types, func, iterable)` (lines 64-74): the comprehension over
the iterable, rebuilt as a `tuple`; the first raising element aborts the
whole call. -/
def mapOnlyL (t : Target) : List Obj → Option (List Obj)
  | [] => some []
  | x :: xs =>
    (mapOnlyElem t x).bind fun y =>
      (mapOnlyL t xs).map fun ys => y :: ys
end

/-- Python `x[0]`: defined on tuples, lists and strings, raises otherwise
(and on empty ones); used for `key[-1][0]` on line 88. -/
def pyIndex0 : Obj → Option Obj
  | .tupO xs => xs.head?
  | .listO xs => xs.head?
  | .str s => (s.toList.head?).map fun c => Obj.str (String.mk [c])
  | _ => none

/-- Lines 77-79: if the signature contains a first-class function, rewrite
it with `map_only(types.Dispatcher, _compute_custom_key, sig)` and replace
the leading element of the base key: `key = (sig,) + key[1:]`. -/
def sigStep (sig : List Obj) (K0 : List Obj) : Option (List Obj) :=
  if isFCFL sig then
    (mapOnlyL .tyDisp sig).map fun s => Obj.tupO s :: K0.drop 1
  else some K0

/-- Lines 81-88: if the function has a closure whose cell contents contain
a first-class function, rewrite them with
`map_only(dispatcher.Dispatcher, _compute_custom_key, cvars)`, digest the
serialized result, and set `key = key[:-1] + (key[-1][0],
hasher(cvarbytes))` — a tuple concatenation appending two elements. -/
def closStep (hasher : Obj → String) (closure : Option (List Obj))
    (key : List Obj) : Option (List Obj) :=
  match closure with
  | none => some key
  | some cvars =>
    if isFCFL cvars then
      (mapOnlyL .objDisp cvars).bind fun cvars2 =>
        (key.getLast?).bind fun last =>
          (pyIndex0 last).map fun x0 =>
            key.dropLast ++ [x0, Obj.str (hasher (Obj.tupO cvars2))]
    else some key

/-- `ZFunctionCache._index_key(self, sig, codegen)` (lines 49-89).
`K0` stands for the result of `super()._index_key(sig, codegen)` (the
external numba base cache), `closure` for the cell contents of
`self._py_func.__closure__` (`none` when `__closure__ is None`), and
`hasher` for `lambda x: hashlib.sha256(dumps(x)).hexdigest()`. -/
def zIndexKey (hasher : Obj → String) (sig : List Obj)
    (closure : Option (List Obj)) (K0 : List Obj) : Option (List Obj) :=
  (sigStep sig K0).bind (closStep hasher closure)

/-! ## Helper lemmas -/

theorem isFCFL_append (xs ys : List Obj) :
    isFCFL (xs ++ ys) = (isFCFL xs || isFCFL ys) := by
  induction xs with
  | nil => simp [isFCFL]
  | cons a as ih => simp [isFCFL, ih, Bool.or_assoc]

theorem mapOnlyElem_tyDisp_dispType (p : Payload) :
    mapOnlyElem .tyDisp (Obj.dispType p) =
      (computeCustomKey p).map fun mq => mkIdObj mq.1 mq.2 := rfl

theorem mapOnlyElem_objDisp_dispType (p : Payload) :
    mapOnlyElem .objDisp (Obj.dispType p) = some (Obj.dispType p) := rfl

theorem mapOnlyElem_tyDisp_dispObj (p : Payload) (ty : Obj) :
    mapOnlyElem .tyDisp (Obj.dispObj p ty) = some (Obj.dispObj p ty) := rfl

theorem mapOnlyElem_objDisp_dispObj (p : Payload) (ty : Obj) :
    mapOnlyElem .objDisp (Obj.dispObj p ty) =
      (computeCustomKey p).map fun mq => mkIdObj mq.1 mq.2 := rfl

theorem mapOnlyElem_listO (t : Target) (xs : List Obj) :
    mapOnlyElem t (Obj.listO xs) = (mapOnlyL t xs).map Obj.tupO := by
  cases t <;> rfl

theorem mapOnlyElem_tupO (t : Target) (xs : List Obj) :
    mapOnlyElem t (Obj.tupO xs) = (mapOnlyL t xs).map Obj.tupO := by
  cases t <;> rfl

theorem mapOnlyL_middle (t : Target) (pre post pre2 post2 : List Obj)
    (x y : Obj) (hpre : mapOnlyL t pre = some pre2)
    (hx : mapOnlyElem t x = some y)
    (hpost : mapOnlyL t post = some post2) :
    mapOnlyL t (pre ++ x :: post) = some (pre2 ++ y :: post2) := by
  induction pre generalizing pre2 with
  | nil =>
    cases hpre
    simp [mapOnlyL, hx, hpost]
  | cons a as ih =>
    rw [mapOnlyL] at hpre
    cases ha : mapOnlyElem t a with
    | none => rw [ha] at hpre; simp at hpre
    | some b =>
      rw [ha] at hpre
      cases has : mapOnlyL t as with
      | none => rw [has] at hpre; simp at hpre
      | some bs =>
        rw [has] at hpre
        simp only [Option.some_bind, Option.map_some] at hpre
        cases hpre
        simp [mapOnlyL, ha, ih bs has]

theorem mapOnlyL_middle_none (t : Target) (pre post : List Obj) (x : Obj)
    (hx : mapOnlyElem t x = none) :
    mapOnlyL t (pre ++ x :: post) = none := by
  induction pre with
  | nil => simp [mapOnlyL, hx]
  | cons a as ih =>
    rw [List.cons_append, mapOnlyL, ih]
    cases mapOnlyElem t a <;> simp

theorem mapOnlyL_congr_middle (t : Target) (pre post : List Obj) (x y : Obj)
    (hxy : mapOnlyElem t x = mapOnlyElem t y) :
    mapOnlyL t (pre ++ x :: post) = mapOnlyL t (pre ++ y :: post) := by
  induction pre with
  | nil => simp [mapOnlyL, hxy]
  | cons a as ih => simp [mapOnlyL, ih]

theorem mkIdObj_inj (m1 q1 m2 q2 : String) (h : mkIdObj m1 q1 = mkIdObj m2 q2) :
    m1 = m2 ∧ q1 = q2 := by
  simpa [mkIdObj] using h

/-! ## Claims -/

/-- C1 (Baseline equivalence): for every signature containing no
first-class-function reference anywhere (neither in the signature, at any
nesting depth, nor in the closure cells), `ZFunctionCache._index_key`
returns the base `FunctionCache._index_key` key `K0` unchanged. -/
theorem C1_baseline_equivalence (hasher : Obj → String) (sig : List Obj)
    (closure : Option (List Obj)) (K0 : List Obj)
    (hsig : isFCFL sig = false)
    (hclos : ∀ cvars, closure = some cvars → isFCFL cvars = false) :
    zIndexKey hasher sig closure K0 = some K0 := by
  unfold zIndexKey sigStep closStep
  rw [hsig]
  cases closure with
  | none => simp
  | some cvars => simp [hclos cvars rfl]

theorem C1_baseline_equivalence_witness :
    zIndexKey (fun _ => "d") [Obj.scalar 1, Obj.tupO [Obj.scalar 2]]
      (some [Obj.str "c"]) [Obj.scalar 9, Obj.str "h"] =
      some [Obj.scalar 9, Obj.str "h"] :=
  C1_baseline_equivalence _ _ _ _ (by decide)
    (by intro cvars h; cases h; decide)

/-- Shared shape lemma for the signature-rewrite branch: with a
first-class function in the signature and none in the closure, the key is
the rewritten signature consed onto the baseline key's tail. -/
theorem zIndexKey_sig_rewrite (hasher : Obj → String)
    (sig sig2 : List Obj) (closure : Option (List Obj)) (K0 : List Obj)
    (hsig : isFCFL sig = true)
    (hmap : mapOnlyL .tyDisp sig = some sig2)
    (hclos : ∀ cvars, closure = some cvars → isFCFL cvars = false) :
    zIndexKey hasher sig closure K0 = some (Obj.tupO sig2 :: K0.drop 1) := by
  unfold zIndexKey sigStep closStep
  rw [hsig, hmap]
  cases closure with
  | none => simp
  | some cvars => simp [hclos cvars rfl]

/-- C2 (Signature rewrite preserves the trailing code hash): when the
signature contains a first-class-function reference and the closure
contains none, the key is the baseline key `K0` with only its leading
element replaced by the rewritten signature (as computed by `map_only` with
`types.Dispatcher`), the whole tail of `K0` — its trailing code-hash
element included — unchanged. -/
theorem C2_signature_rewrite (hasher : Obj → String)
    (sig sig2 : List Obj) (closure : Option (List Obj)) (K0 : List Obj)
    (hsig : isFCFL sig = true)
    (hmap : mapOnlyL .tyDisp sig = some sig2)
    (hclos : ∀ cvars, closure = some cvars → isFCFL cvars = false) :
    zIndexKey hasher sig closure K0 = some (Obj.tupO sig2 :: K0.drop 1) :=
  zIndexKey_sig_rewrite hasher sig sig2 closure K0 hsig hmap hclos

theorem C2_signature_rewrite_witness :
    zIndexKey (fun _ => "d")
      [Obj.scalar 1, Obj.dispType (.direct ⟨"m", "square"⟩)]
      none [Obj.scalar 9, Obj.scalar 10, Obj.str "codehash"] =
      some [Obj.tupO [Obj.scalar 1, mkIdObj "m" "square"],
            Obj.scalar 10, Obj.str "codehash"] :=
  C2_signature_rewrite _ _ [Obj.scalar 1, mkIdObj "m" "square"] _ _
    (by decide) (by decide) (by intro cvars h; cases h)

/-- C3 (counterexample): the claim says the returned key has the same
number of elements as the baseline key, the last being the pair
`(first component of the original final element, digest)`.  In the code,
`key[:-1] + (key[-1][0], hasher(cvarbytes))` is tuple *concatenation*: on a
3-element baseline key the result has 4 elements and its last element is
the bare digest string, not a two-component pair. -/
theorem C3_closure_digest_counterexample :
    (zIndexKey (fun _ => "DIG") [Obj.scalar 0]
        (some [Obj.dispObj (.direct ⟨"m", "square"⟩)
                 (Obj.dispType (.direct ⟨"m", "square"⟩))])
        [Obj.scalar 7, Obj.scalar 8, Obj.tupO [Obj.str "CH", Obj.str "VH"]] =
      some [Obj.scalar 7, Obj.scalar 8, Obj.str "CH", Obj.str "DIG"]) ∧
    [Obj.scalar 7, Obj.scalar 8, Obj.str "CH", Obj.str "DIG"].length ≠
      [Obj.scalar 7, Obj.scalar 8, Obj.tupO [Obj.str "CH", Obj.str "VH"]].length := by
  constructor
  · rfl
  · decide

/-- C3 (amended): when the closure cells contain a first-class-function
reference, each `dispatcher.Dispatcher` in them is replaced by its
`(module, qualname)` pair, the rewritten contents are serialized and
digested, and the key's final element is removed while TWO elements are
appended — the first component of the removed element and the digest — so
the returned key has one more element than the key produced by the
signature step, its last element being the digest itself. -/
theorem C3_closure_digest_amended (hasher : Obj → String)
    (sig K0 key1 cvars cvars2 : List Obj) (last x0 : Obj)
    (h1 : sigStep sig K0 = some key1)
    (hfc : isFCFL cvars = true)
    (hmap : mapOnlyL .objDisp cvars = some cvars2)
    (hlast : key1.getLast? = some last)
    (hx0 : pyIndex0 last = some x0) :
    zIndexKey hasher sig (some cvars) K0 =
      some (key1.dropLast ++ [x0, Obj.str (hasher (Obj.tupO cvars2))]) ∧
    (key1.dropLast ++ [x0, Obj.str (hasher (Obj.tupO cvars2))]).length =
      key1.length + 1 := by
  have hne : key1 ≠ [] := by
    intro h
    rw [h] at hlast
    simp at hlast
  constructor
  · unfold zIndexKey closStep
    rw [h1, Option.some_bind]
    simp [hfc, hmap, hlast, hx0]
  · have hlen : 1 ≤ key1.length := by
      cases key1 with
      | nil => exact absurd rfl hne
      | cons a as => simp
    simp [List.length_dropLast]
    omega

theorem C3_closure_digest_amended_witness :
    zIndexKey (fun _ => "DIG") [Obj.scalar 0]
      (some [Obj.dispObj (.direct ⟨"m", "square"⟩)
               (Obj.dispType (.direct ⟨"m", "square"⟩))])
      [Obj.scalar 7, Obj.scalar 8, Obj.tupO [Obj.str "CH", Obj.str "VH"]] =
      some [Obj.scalar 7, Obj.scalar 8, Obj.str "CH", Obj.str "DIG"] ∧
    (4 : Nat) = 3 + 1 :=
  C3_closure_digest_amended (fun _ => "DIG") [Obj.scalar 0]
    [Obj.scalar 7, Obj.scalar 8, Obj.tupO [Obj.str "CH", Obj.str "VH"]]
    [Obj.scalar 7, Obj.scalar 8, Obj.tupO [Obj.str "CH", Obj.str "VH"]]
    [Obj.dispObj (.direct ⟨"m", "square"⟩)
      (Obj.dispType (.direct ⟨"m", "square"⟩))]
    [mkIdObj "m" "square"]
    (Obj.tupO [Obj.str "CH", Obj.str "VH"]) (Obj.str "CH")
    (by decide) (by decide) (by decide) (by decide) (by decide)

/-- C4 (Identity substitution determinism): two first-class-function
descriptors `p1` and `p2` from the same source function (equal
`(module, qualname)` identity, possibly distinct compiled instances —
e.g. one exposing `py_func` directly and one through `key()`) substituted
at the same position of an otherwise-identical signature yield identical
keys.  `K1` and `K2` are the two baseline keys; per the base-cache
contract only their leading element is signature-derived, so their tails
agree. -/
theorem C4_identity_substitution (hasher : Obj → String)
    (closure : Option (List Obj)) (pre post pre2 post2 K1 K2 : List Obj)
    (p1 p2 : Payload) (mq : String × String)
    (h1 : computeCustomKey p1 = some mq)
    (h2 : computeCustomKey p2 = some mq)
    (hpre : mapOnlyL .tyDisp pre = some pre2)
    (hpost : mapOnlyL .tyDisp post = some post2)
    (hK : K1.drop 1 = K2.drop 1) :
    zIndexKey hasher (pre ++ Obj.dispType p1 :: post) closure K1 =
    zIndexKey hasher (pre ++ Obj.dispType p2 :: post) closure K2 := by
  have hfc : ∀ p : Payload, isFCFL (pre ++ Obj.dispType p :: post) = true := by
    intro p
    rw [isFCFL_append]
    simp [isFCFL, isFCF]
  have hm1 : mapOnlyL .tyDisp (pre ++ Obj.dispType p1 :: post) =
      some (pre2 ++ mkIdObj mq.1 mq.2 :: post2) :=
    mapOnlyL_middle _ _ _ _ _ _ _ hpre
      (by rw [mapOnlyElem_tyDisp_dispType, h1]; rfl) hpost
  have hm2 : mapOnlyL .tyDisp (pre ++ Obj.dispType p2 :: post) =
      some (pre2 ++ mkIdObj mq.1 mq.2 :: post2) :=
    mapOnlyL_middle _ _ _ _ _ _ _ hpre
      (by rw [mapOnlyElem_tyDisp_dispType, h2]; rfl) hpost
  unfold zIndexKey sigStep
  rw [hfc p1, hfc p2, hm1, hm2, hK]
  simp

theorem C4_identity_substitution_witness :
    zIndexKey (fun _ => "d")
      [Obj.scalar 1, Obj.dispType (.direct ⟨"m", "f"⟩)] none
      [Obj.scalar 5, Obj.str "h"] =
    zIndexKey (fun _ => "d")
      [Obj.scalar 1, Obj.dispType (.keyed ⟨"m", "f"⟩)] none
      [Obj.scalar 6, Obj.str "h"] :=
  C4_identity_substitution (fun _ => "d") none [Obj.scalar 1] []
    [Obj.scalar 1] [] [Obj.scalar 5, Obj.str "h"] [Obj.scalar 6, Obj.str "h"]
    (.direct ⟨"m", "f"⟩) (.keyed ⟨"m", "f"⟩) ("m", "f")
    (by decide) (by decide) (by decide) (by decide) (by decide)

/-- C5 (Discrimination): two first-class-function descriptors whose
`(module, qualname)` identities differ, substituted at the same position of
an otherwise-identical signature (with a closure containing no first-class
function), yield different keys. -/
theorem C5_discrimination (hasher : Obj → String)
    (closure : Option (List Obj)) (pre post pre2 post2 K1 K2 : List Obj)
    (p1 p2 : Payload) (mq1 mq2 : String × String)
    (h1 : computeCustomKey p1 = some mq1)
    (h2 : computeCustomKey p2 = some mq2)
    (hne : mq1 ≠ mq2)
    (hpre : mapOnlyL .tyDisp pre = some pre2)
    (hpost : mapOnlyL .tyDisp post = some post2)
    (hclos : ∀ cvars, closure = some cvars → isFCFL cvars = false) :
    zIndexKey hasher (pre ++ Obj.dispType p1 :: post) closure K1 ≠
    zIndexKey hasher (pre ++ Obj.dispType p2 :: post) closure K2 := by
  have hfc : ∀ p : Payload, isFCFL (pre ++ Obj.dispType p :: post) = true := by
    intro p
    rw [isFCFL_append]
    simp [isFCFL, isFCF]
  have hm1 : mapOnlyL .tyDisp (pre ++ Obj.dispType p1 :: post) =
      some (pre2 ++ mkIdObj mq1.1 mq1.2 :: post2) :=
    mapOnlyL_middle _ _ _ _ _ _ _ hpre
      (by rw [mapOnlyElem_tyDisp_dispType, h1]; rfl) hpost
  have hm2 : mapOnlyL .tyDisp (pre ++ Obj.dispType p2 :: post) =
      some (pre2 ++ mkIdObj mq2.1 mq2.2 :: post2) :=
    mapOnlyL_middle _ _ _ _ _ _ _ hpre
      (by rw [mapOnlyElem_tyDisp_dispType, h2]; rfl) hpost
  have e1 : zIndexKey hasher (pre ++ Obj.dispType p1 :: post) closure K1 =
      some (Obj.tupO (pre2 ++ mkIdObj mq1.1 mq1.2 :: post2) :: K1.drop 1) :=
    zIndexKey_sig_rewrite hasher _ _ closure K1 (hfc p1) hm1 hclos
  have e2 : zIndexKey hasher (pre ++ Obj.dispType p2 :: post) closure K2 =
      some (Obj.tupO (pre2 ++ mkIdObj mq2.1 mq2.2 :: post2) :: K2.drop 1) :=
    zIndexKey_sig_rewrite hasher _ _ closure K2 (hfc p2) hm2 hclos
  rw [e1, e2]
  intro h
  apply hne
  have hl := Option.some.inj h
  have hhd : Obj.tupO (pre2 ++ mkIdObj mq1.1 mq1.2 :: post2) =
      Obj.tupO (pre2 ++ mkIdObj mq2.1 mq2.2 :: post2) :=
    (List.cons.injEq _ _ _ _ ▸ hl).1
  have hls : pre2 ++ mkIdObj mq1.1 mq1.2 :: post2 =
      pre2 ++ mkIdObj mq2.1 mq2.2 :: post2 := by
    injection hhd
  have hmk : mkIdObj mq1.1 mq1.2 = mkIdObj mq2.1 mq2.2 :=
    (List.cons.injEq _ _ _ _ ▸ List.append_cancel_left hls).1
  obtain ⟨ha, hb⟩ := mkIdObj_inj _ _ _ _ hmk
  exact Prod.ext ha hb

theorem C5_discrimination_witness :
    zIndexKey (fun _ => "d")
      [Obj.scalar 1, Obj.dispType (.direct ⟨"m", "f"⟩)] none
      [Obj.scalar 5, Obj.str "h"] ≠
    zIndexKey (fun _ => "d")
      [Obj.scalar 1, Obj.dispType (.direct ⟨"m", "g"⟩)] none
      [Obj.scalar 5, Obj.str "h"] :=
  C5_discrimination (fun _ => "d") none [Obj.scalar 1] []
    [Obj.scalar 1] [] [Obj.scalar 5, Obj.str "h"] [Obj.scalar 5, Obj.str "h"]
    (.direct ⟨"m", "f"⟩) (.direct ⟨"m", "g"⟩) ("m", "f") ("m", "g")
    (by decide) (by decide) (by decide) (by decide) (by decide)
    (by intro cvars h; cases h)

/-- C6 (Nesting): a `types.Dispatcher` descriptor nested inside a container
descriptor is detected by `_is_first_class_function` and rewritten by
`map_only` exactly as a top-level occurrence would be: the same
`(module, qualname)` pair appears at the nested position. -/
theorem C6_nesting (xs ys xs2 ys2 : List Obj) (p : Payload)
    (mq : String × String)
    (hp : computeCustomKey p = some mq)
    (hxs : mapOnlyL .tyDisp xs = some xs2)
    (hys : mapOnlyL .tyDisp ys = some ys2) :
    isFCF (Obj.tupO (xs ++ Obj.dispType p :: ys)) = true ∧
    mapOnlyElem .tyDisp (Obj.tupO (xs ++ Obj.dispType p :: ys)) =
      some (Obj.tupO (xs2 ++ mkIdObj mq.1 mq.2 :: ys2)) ∧
    mapOnlyElem .tyDisp (Obj.dispType p) = some (mkIdObj mq.1 mq.2) := by
  have helem : mapOnlyElem .tyDisp (Obj.dispType p) = some (mkIdObj mq.1 mq.2) := by
    rw [mapOnlyElem_tyDisp_dispType, hp]
    rfl
  refine ⟨?_, ?_, helem⟩
  · show isFCFL (xs ++ Obj.dispType p :: ys) = true
    rw [isFCFL_append]
    simp [isFCFL, isFCF]
  · rw [mapOnlyElem_tupO, mapOnlyL_middle _ _ _ _ _ _ _ hxs helem hys]
    rfl

theorem C6_nesting_witness :
    isFCF (Obj.tupO ([Obj.scalar 1] ++ Obj.dispType (.direct ⟨"m", "f"⟩) :: [])) = true ∧
    mapOnlyElem .tyDisp
        (Obj.tupO ([Obj.scalar 1] ++ Obj.dispType (.direct ⟨"m", "f"⟩) :: [])) =
      some (Obj.tupO ([Obj.scalar 1] ++ mkIdObj "m" "f" :: [])) ∧
    mapOnlyElem .tyDisp (Obj.dispType (.direct ⟨"m", "f"⟩)) =
      some (mkIdObj "m" "f") :=
  C6_nesting [Obj.scalar 1] [] [Obj.scalar 1] [] (.direct ⟨"m", "f"⟩)
    ("m", "f") (by decide) (by decide) (by decide)

/-- C7 (Fail-loud on malformed descriptors): an element of the signature
that is detected as first-class but on which `_compute_custom_key` raises
(no direct `py_func` and no `key()` exposing one — e.g. the malformed
`types.Dispatcher` of the last conjuncts, also nested inside containers)
makes `_index_key` raise; no fallback key is ever returned. -/
theorem C7_fail_loud (hasher : Obj → String) (closure : Option (List Obj))
    (K0 pre post : List Obj) (d : Obj)
    (hd : isFCF d = true)
    (hfail : mapOnlyElem .tyDisp d = none) :
    zIndexKey hasher (pre ++ d :: post) closure K0 = none ∧
    isFCF (Obj.dispType Payload.malformed) = true ∧
    mapOnlyElem .tyDisp (Obj.dispType Payload.malformed) = none := by
  refine ⟨?_, rfl, rfl⟩
  unfold zIndexKey sigStep
  rw [isFCFL_append]
  simp only [isFCFL, hd, Bool.true_or, Bool.or_true, if_true]
  rw [mapOnlyL_middle_none _ _ _ _ hfail]
  rfl

theorem C7_fail_loud_witness :
    (zIndexKey (fun _ => "d")
        ([Obj.scalar 1] ++ Obj.dispType Payload.malformed :: []) none
        [Obj.scalar 5, Obj.str "h"] = none) ∧
    isFCF (Obj.dispType Payload.malformed) = true ∧
    mapOnlyElem .tyDisp (Obj.dispType Payload.malformed) = none :=
  C7_fail_loud (fun _ => "d") none [Obj.scalar 5, Obj.str "h"]
    [Obj.scalar 1] [] (Obj.dispType Payload.malformed)
    (by decide) (by decide)

/-- C8 (Purity and determinism): `_index_key` is a pure function of its
inputs — in this embedding it is a mathematical function, and its result
depends only on the values of the signature, the closure snapshot, the
baseline key and the extensional behaviour of the serialization-and-digest
collaborator: two invocations with equal inputs and pointwise-equal digest
collaborators return equal keys, and no input is modified (the embedding
builds only new values). -/
theorem C8_purity_determinism (h1 h2 : Obj → String)
    (sig1 sig2 : List Obj) (cl1 cl2 : Option (List Obj)) (K1 K2 : List Obj)
    (hh : ∀ o, h1 o = h2 o) (hs : sig1 = sig2) (hc : cl1 = cl2)
    (hK : K1 = K2) :
    zIndexKey h1 sig1 cl1 K1 = zIndexKey h2 sig2 cl2 K2 := by
  have he : h1 = h2 := funext hh
  rw [he, hs, hc, hK]

theorem C8_purity_determinism_witness :
    zIndexKey (fun _ => "d")
      [Obj.dispType (.direct ⟨"m", "f"⟩)]
      (some [Obj.dispObj (.direct ⟨"m", "f"⟩) (Obj.dispType (.direct ⟨"m", "f"⟩))])
      [Obj.scalar 5, Obj.str "h"] =
    zIndexKey (fun _ => "d")
      [Obj.dispType (.direct ⟨"m", "f"⟩)]
      (some [Obj.dispObj (.direct ⟨"m", "f"⟩) (Obj.dispType (.direct ⟨"m", "f"⟩))])
      [Obj.scalar 5, Obj.str "h"] :=
  C8_purity_determinism (fun _ => "d") (fun _ => "d") _ _ _ _ _ _
    (fun _ => rfl) rfl rfl rfl

/-- C9 (Asymmetric substitution domains): a raw `dispatcher.Dispatcher`
object in the signature triggers the higher-order detection (through its
`_type`) and the replacement of the key's leading element, yet the
signature rewrite — which substitutes only `types.Dispatcher` descriptors —
leaves the raw object itself unsubstituted in the rewritten signature;
conversely the closure rewrite substitutes only `dispatcher.Dispatcher`
objects and passes `types.Dispatcher` descriptors through unchanged. -/
theorem C9_asymmetric_domains (hasher : Obj → String)
    (closure : Option (List Obj)) (K0 pre post pre2 post2 : List Obj)
    (p q r : Payload) (ty : Obj)
    (hclos : ∀ cvars, closure = some cvars → isFCFL cvars = false)
    (hpre : mapOnlyL .tyDisp pre = some pre2)
    (hpost : mapOnlyL .tyDisp post = some post2) :
    isFCF (Obj.dispObj p (Obj.dispType q)) = true ∧
    zIndexKey hasher (pre ++ Obj.dispObj p (Obj.dispType q) :: post)
        closure K0 =
      some (Obj.tupO (pre2 ++ Obj.dispObj p (Obj.dispType q) :: post2) ::
        K0.drop 1) ∧
    mapOnlyElem .objDisp (Obj.dispType r) = some (Obj.dispType r) ∧
    mapOnlyElem .objDisp (Obj.dispObj p ty) =
      (computeCustomKey p).map fun mq => mkIdObj mq.1 mq.2 := by
  refine ⟨rfl, ?_, mapOnlyElem_objDisp_dispType r,
    mapOnlyElem_objDisp_dispObj p ty⟩
  have h1 : isFCFL (pre ++ Obj.dispObj p (Obj.dispType q) :: post) = true := by
    rw [isFCFL_append]
    simp [isFCFL, isFCF]
  have h2 : mapOnlyL .tyDisp (pre ++ Obj.dispObj p (Obj.dispType q) :: post) =
      some (pre2 ++ Obj.dispObj p (Obj.dispType q) :: post2) :=
    mapOnlyL_middle _ _ _ _ _ _ _ hpre (mapOnlyElem_tyDisp_dispObj _ _) hpost
  exact zIndexKey_sig_rewrite hasher _ _ closure K0 h1 h2 hclos

theorem C9_asymmetric_domains_witness :
    isFCF (Obj.dispObj (.direct ⟨"m", "f"⟩)
      (Obj.dispType (.direct ⟨"m", "f"⟩))) = true ∧
    zIndexKey (fun _ => "d")
        ([] ++ Obj.dispObj (.direct ⟨"m", "f"⟩)
          (Obj.dispType (.direct ⟨"m", "f"⟩)) :: []) none
        [Obj.scalar 5, Obj.str "h"] =
      some (Obj.tupO ([] ++ Obj.dispObj (.direct ⟨"m", "f"⟩)
          (Obj.dispType (.direct ⟨"m", "f"⟩)) :: []) :: [Obj.str "h"]) ∧
    mapOnlyElem .objDisp (Obj.dispType (.keyed ⟨"a", "b"⟩)) =
      some (Obj.dispType (.keyed ⟨"a", "b"⟩)) ∧
    mapOnlyElem .objDisp (Obj.dispObj (.direct ⟨"m", "f"⟩) (Obj.scalar 0)) =
      (computeCustomKey (.direct ⟨"m", "f"⟩)).map fun mq =>
        mkIdObj mq.1 mq.2 :=
  C9_asymmetric_domains (fun _ => "d") none [Obj.scalar 5, Obj.str "h"]
    [] [] [] [] (.direct ⟨"m", "f"⟩) (.direct ⟨"m", "f"⟩)
    (.keyed ⟨"a", "b"⟩) (Obj.scalar 0)
    (by intro cvars h; cases h) (by decide) (by decide)

/-- C10 (Container canonicalization): `map_only` rebuilds both Python
lists and tuples as tuples, so an element that is a list and the tuple
with the same contents rewrite identically; consequently two signatures
that differ only in a list versus a tuple at a container position, both
triggering the rewrite, yield equal keys (the baseline keys may differ
only in their signature-derived leading element). -/
theorem C10_container_canonicalization (hasher : Obj → String)
    (closure : Option (List Obj)) (pre post xs K1 K2 : List Obj)
    (hfc : isFCFL (pre ++ Obj.listO xs :: post) = true)
    (hK : K1.drop 1 = K2.drop 1) :
    (∀ (t : Target) (ys : List Obj),
        mapOnlyElem t (Obj.listO ys) = mapOnlyElem t (Obj.tupO ys)) ∧
    zIndexKey hasher (pre ++ Obj.listO xs :: post) closure K1 =
    zIndexKey hasher (pre ++ Obj.tupO xs :: post) closure K2 := by
  have helem : ∀ (t : Target) (ys : List Obj),
      mapOnlyElem t (Obj.listO ys) = mapOnlyElem t (Obj.tupO ys) := by
    intro t ys
    rw [mapOnlyElem_listO, mapOnlyElem_tupO]
  refine ⟨helem, ?_⟩
  have hfc2 : isFCFL (pre ++ Obj.tupO xs :: post) = true := by
    rw [isFCFL_append] at hfc ⊢
    simpa [isFCFL, isFCF] using hfc
  have hmapeq : mapOnlyL .tyDisp (pre ++ Obj.listO xs :: post) =
      mapOnlyL .tyDisp (pre ++ Obj.tupO xs :: post) :=
    mapOnlyL_congr_middle _ _ _ _ _ (helem _ _)
  unfold zIndexKey sigStep
  rw [hfc, hfc2, hmapeq, hK]
  simp

theorem C10_container_canonicalization_witness :
    (∀ (t : Target) (ys : List Obj),
        mapOnlyElem t (Obj.listO ys) = mapOnlyElem t (Obj.tupO ys)) ∧
    zIndexKey (fun _ => "d")
      ([] ++ Obj.listO [Obj.dispType (.direct ⟨"m", "f"⟩)] :: []) none
      [Obj.scalar 5, Obj.str "h"] =
    zIndexKey (fun _ => "d")
      ([] ++ Obj.tupO [Obj.dispType (.direct ⟨"m", "f"⟩)] :: []) none
      [Obj.scalar 6, Obj.str "h"] :=
  C10_container_canonicalization (fun _ => "d") none [] []
    [Obj.dispType (.direct ⟨"m", "f"⟩)]
    [Obj.scalar 5, Obj.str "h"] [Obj.scalar 6, Obj.str "h"]
    (by decide) (by decide)
